import Mathlib

/-!
Verification development for the browser Q&A board in `src/script.js`
(Firebase Firestore + Auth variant).

The Firestore document store is embedded as an explicit `Store` state:
the `questions` and `answers` collections are lists of records, and each
store primitive (`getDocs`, `addDoc`, `deleteDoc`) becomes a pure state
transformer.  Store writes additionally emit a trace of `Op` values in
execution order, so that ordering properties (answers deleted before
their question) are provable rather than vacuous.  `Array.prototype.sort`
is stable per ECMAScript 2019 and its three comparators here are
consistent, so it is modelled by the stable `List.insertionSort`.
JavaScript `toLowerCase` is modelled as per-character ASCII lowercasing.
-/

namespace QnA

open scoped List

/-- Model of `String.prototype.trim`: drop whitespace from both ends
(`(searchInput?.value || '').trim()` in `renderQuestions`, and the field
trimming in `onCreateQuestion`). -/
def jsTrim (s : String) : String :=
  String.mk (((s.data.dropWhile Char.isWhitespace).reverse.dropWhile Char.isWhitespace).reverse)

/-- Model of `String.prototype.toLowerCase` (ASCII lowercasing). -/
def jsToLower (s : String) : String :=
  String.mk (s.data.map Char.toLower)

/-- Model of `s.includes(pat)`: `pat` occurs contiguously inside `s`. -/
def jsIncludes (s pat : String) : Bool :=
  decide (pat.data <:+: s.data)

/-- Firebase Auth user as consumed by `script.js` (`currentUser`). -/
structure User where
  uid : String
  displayName : String
deriving DecidableEq, Repr

/-- A document of the `questions` collection, with the fields `script.js`
reads: `{ id, title, body, author, authorId, createdAt, answerCount }`.
`answerCount` is optional in the stored shape; every read site applies
`data.answerCount || 0`, modelled as `Option.getD 0`. -/
structure QDoc where
  id : String
  title : String
  body : String
  author : String
  authorId : String
  createdAt : Int
  answerCount : Option Nat
deriving DecidableEq, Repr

/-- A document of the `answers` collection:
`{ id, body, author, authorId, createdAt, questionId }`. -/
structure ADoc where
  id : String
  body : String
  author : String
  authorId : String
  createdAt : Int
  questionId : String
deriving DecidableEq, Repr

/-- The backing Firestore state.  `available = false` models a backing
medium that cannot be read (every `getDocs` throws).  `nextId` feeds
`addDoc`'s fresh document ids and `now` feeds `serverTimestamp()`. -/
structure Store where
  questions : List QDoc
  answers : List ADoc
  available : Bool
  nextId : Nat
  now : Int
deriving DecidableEq, Repr

/-- Errors thrown by the data-access functions of `script.js`. -/
inductive JsErr where
  | notLoggedIn
  | permissionDenied
  | storeUnavailable
deriving DecidableEq, Repr

/-- Message carried by each thrown error, `error.message` in `script.js`
(lines 188, 221); the unavailable-store message is supplied by Firestore
itself. -/
def errMessage : JsErr → String
  | JsErr.notLoggedIn => "로그인이 필요합니다."
  | JsErr.permissionDenied => "자신이 작성한 질문만 삭제할 수 있습니다."
  | JsErr.storeUnavailable => "store unavailable"

/-- One primitive store write, recorded in execution order. -/
inductive Op where
  | delAnswer (id : String)
  | delQuestion (id : String)
  | addQuestion (id : String)
deriving DecidableEq, Repr

/-- Decidability of the comparator-induced order used by the sort model. -/
instance decCmpLe {α : Type} (cmp : α → α → Int) :
    DecidableRel (fun a b => cmp a b ≤ 0) :=
  fun a b => Int.decLe (cmp a b) 0

/-- Model of `copy.sort(cmp)` for a JS comparator `cmp` returning a number:
the unique stable sort placing `a` no later than `b` when `cmp a b ≤ 0`.
`Array.prototype.sort` is stable (ECMAScript 2019) and the comparators in
`script.js` are consistent, so any stable sort is the exact semantics. -/
def jsSort {α : Type} (cmp : α → α → Int) (l : List α) : List α :=
  List.insertionSort (fun a b => cmp a b ≤ 0) l

/-- Comparator `const byNewest = (a, b) => b.createdAt - a.createdAt` (line 67). -/
def byNewest (a b : QDoc) : Int := b.createdAt - a.createdAt

/-- Comparator `const byOldest = (a, b) => a.createdAt - b.createdAt` (line 68). -/
def byOldest (a b : QDoc) : Int := a.createdAt - b.createdAt

/-- Comparator `byMostAnswers = (a, b) => (b.answerCount || 0) - (a.answerCount || 0)`
(line 69). -/
def byMostAnswers (a b : QDoc) : Int :=
  (Int.ofNat (b.answerCount.getD 0)) - (Int.ofNat (a.answerCount.getD 0))

/-- The client-side answer comparator of `loadAnswers` (lines 297-301):
ascending `createdAt`. -/
def byAnswerTime (a b : ADoc) : Int := a.createdAt - b.createdAt

/-- Model of `applySort` (lines 518-523): copy the array and sort it with the
comparator selected by the sort mode, defaulting to newest-first. -/
def applySort (questions : List QDoc) (sort : String) : List QDoc :=
  if sort = "oldest" then jsSort byOldest questions
  else if sort = "mostAnswers" then jsSort byMostAnswers questions
  else jsSort byNewest questions

/-- Model of `filterByKeyword` (lines 509-516): an empty (falsy) keyword returns the
input unchanged; otherwise keep the questions whose lowercased title, body
or author contains the keyword. -/
def filterByKeyword (questions : List QDoc) (keyword : String) : List QDoc :=
  if keyword = "" then questions
  else questions.filter (fun q =>
    jsIncludes (jsToLower q.title) keyword ||
    jsIncludes (jsToLower q.body) keyword ||
    jsIncludes (jsToLower q.author) keyword)

/-- The keyword the renderer derives from the raw search input:
`(searchInput?.value || '').trim().toLowerCase()` (line 377). -/
def renderKeyword (raw : String) : String := jsToLower (jsTrim raw)

/-- The filter stage of `renderQuestions` (line 379): `filterByKeyword`
applied to the renderer-derived keyword. -/
def renderFiltered (questions : List QDoc) (raw : String) : List QDoc :=
  filterByKeyword questions (renderKeyword raw)

/-- The full `filteredQuestions` pipeline of `renderQuestions` (line 379). -/
def renderList (questions : List QDoc) (raw mode : String) : List QDoc :=
  applySort (renderFiltered questions raw) mode

/-- Model of `loadQuestions` (lines 159-180): query the `questions` collection
ordered by `createdAt` descending and normalise `answerCount`; the whole
body is wrapped in try/catch and a read failure returns `[]`. -/
def loadQuestions (s : Store) : List QDoc :=
  if s.available then
    (jsSort byNewest s.questions).map
      (fun q => { q with answerCount := some (q.answerCount.getD 0) })
  else []

/-- Model of `loadAnswers` (lines 281-311): query the `answers` collection filtered
by `questionId`, sort client-side by ascending `createdAt`; the whole body
is wrapped in try/catch and a read failure returns `[]`. -/
def loadAnswers (questionId : String) (s : Store) : List ADoc :=
  if s.available then
    jsSort byAnswerTime (s.answers.filter (fun a => a.questionId == questionId))
  else []

/-- The fresh document id `addDoc` assigns (opaque, modelled from the
store's counter). -/
def newDocId (s : Store) : String := "doc" ++ toString s.nextId

/-- Model of `saveQuestion` (lines 185-203): require a logged-in user, then add a
question document carrying `authorId`, a server timestamp and
`answerCount: 0`; returns the new document id. -/
def saveQuestion (u : Option User) (author title body : String) (s : Store) :
    Except JsErr (Store × List Op × String) :=
  match u with
  | none => Except.error JsErr.notLoggedIn
  | some user =>
    if s.available = false then Except.error JsErr.storeUnavailable
    else
      let qd : QDoc :=
        { id := newDocId s, title := title, body := body, author := author,
          authorId := user.uid, createdAt := s.now, answerCount := some 0 }
      Except.ok ({ s with questions := s.questions ++ [qd], nextId := s.nextId + 1 },
        [Op.addQuestion qd.id], qd.id)

/-- The cascade part of `deleteQuestion` (lines 225-233): first delete
every answer whose `questionId` matches (lines 226-231), then delete the
question document itself (line 233).  The op trace records that order. -/
def deleteQuestionDocs (questionId : String) (s : Store) :
    Store × List Op × Option JsErr :=
  let toDelete := s.answers.filter (fun a => a.questionId == questionId)
  let s1 : Store := { s with answers := s.answers.filter (fun a => a.questionId != questionId) }
  let s2 : Store := { s1 with questions := s1.questions.filter (fun q => q.id != questionId) }
  (s2, toDelete.map (fun a => Op.delAnswer a.id) ++ [Op.delQuestion questionId], none)

/-- Model of `deleteQuestion` (lines 208-238): require a logged-in user; fetch the
question document by id; if one exists and its `authorId` differs from the
requester's uid, throw before any write; otherwise cascade-delete.  On any
thrown error the store is untouched and no op was issued. -/
def deleteQuestion (u : Option User) (questionId : String) (s : Store) :
    Store × List Op × Option JsErr :=
  match u with
  | none => (s, [], some JsErr.notLoggedIn)
  | some user =>
    if s.available = false then (s, [], some JsErr.storeUnavailable)
    else
      match s.questions.filter (fun q => q.id == questionId) with
      | qd :: _ =>
        if qd.authorId != user.uid then (s, [], some JsErr.permissionDenied)
        else deleteQuestionDocs questionId s
      | [] => deleteQuestionDocs questionId s

/-- Model of `onDeleteQuestion` (lines 556-565): ask for confirmation, call
`deleteQuestion`, and surface any thrown error as an alert message. -/
def onDeleteQuestion (confirmOk : Bool) (u : Option User) (id : String) (s : Store) :
    Store × List Op × Option String :=
  if confirmOk = false then (s, [], none)
  else
    match deleteQuestion u id s with
    | (s1, ops, none) => (s1, ops, none)
    | (s1, ops, some e) => (s1, ops, some ("질문 삭제에 실패했습니다: " ++ errMessage e))

/-- Model of `onCreateQuestion` (lines 528-554): require a logged-in user, trim the
three fields, silently return when any is blank (no store round-trip),
otherwise persist via `saveQuestion` and surface a failure as an alert. -/
def onCreateQuestion (u : Option User) (authorRaw titleRaw bodyRaw : String) (s : Store) :
    Store × List Op × Option String :=
  match u with
  | none => (s, [], some "질문을 작성하려면 로그인이 필요합니다.")
  | some user =>
    if jsTrim authorRaw = "" ∨ jsTrim titleRaw = "" ∨ jsTrim bodyRaw = "" then (s, [], none)
    else
      match saveQuestion (some user) (jsTrim authorRaw) (jsTrim titleRaw) (jsTrim bodyRaw) s with
      | Except.ok (s1, ops, _) => (s1, ops, none)
      | Except.error e => (s, [], some ("질문 등록에 실패했습니다: " ++ errMessage e))

/-- "Referential integrity": every answer's owning question exists in the
store, so no listing path can return an answer of a nonexistent question. -/
def refIntact (s : Store) : Bool :=
  s.answers.all (fun a => s.questions.any (fun q => q.id == a.questionId))

/-- Per-character replacement of `escapeHTML`'s regex callback
(lines 505-507). -/
def escChar (c : Char) : List Char :=
  if c = '&' then "&amp;".data
  else if c = '<' then "&lt;".data
  else if c = '>' then "&gt;".data
  else if c = '"' then "&quot;".data
  else [c]

/-- `escapeHTML` (lines 505-507): replace every occurrence of a character
of the class `[&<>"]` by its HTML entity. -/
def escapeHTML (s : String) : String :=
  String.mk (s.data.flatMap escChar)

/-- The entity tails that may legitimately follow a `&` in escaped output. -/
def entityTails : List (List Char) :=
  ["amp;".data, "lt;".data, "gt;".data, "quot;".data]

/-- A character sequence is well escaped when it holds no raw `<`, `>` or
`"`, and every `&` is the leading character of one of the four entities
`escapeHTML` produces. -/
def wellEscaped : List Char → Bool
  | [] => true
  | c :: cs =>
    if c = '<' ∨ c = '>' ∨ c = '"' then false
    else if c = '&' then (entityTails.any (fun t => t.isPrefixOf cs)) && wellEscaped cs
    else wellEscaped cs

/-- State of the subscription machinery of `subscribeToQuestions`
(lines 316-371): `activeGen` numbers the currently installed `onSnapshot`
listener (each `subscribeToQuestions` call unsubscribes the previous one
and installs a fresh one, lines 317-319); `pending` holds the
answer-loading `Promise.all` chains already started by a snapshot callback
and not yet resolved; `rendered` is the list most recently passed to
`renderQuestions`. -/
structure SyncState where
  activeGen : Nat
  pending : List (Nat × List QDoc)
  rendered : Option (List QDoc)
deriving DecidableEq, Repr

/-- Asynchronous events of the subscription machinery.  `trigger` is a
call to `subscribeToQuestions` (search keystroke or sort change,
lines 635-642); `snapshotFires g docs` is the `onSnapshot` callback of
subscription `g` delivering `docs` and starting its answer loads
(lines 324-342); `answersResolve g docs` is the completion of that
`Promise.all`, which calls `renderQuestions` (lines 345-348). -/
inductive SyncEv where
  | trigger
  | snapshotFires (g : Nat) (docs : List QDoc)
  | answersResolve (g : Nat) (docs : List QDoc)
deriving DecidableEq, Repr

/-- One event step.  A snapshot callback can only fire for the currently
installed listener (unsubscribing detaches it), but an already started
`Promise.all` continuation runs whenever it resolves: the code has no
generation check before `renderQuestions(questionsWithAnswers)`, so a
resolution of a superseded subscription still renders.  Returns `none`
for an event the code could not produce. -/
def syncStep (kw mode : String) (st : SyncState) : SyncEv → Option SyncState
  | SyncEv.trigger => some { st with activeGen := st.activeGen + 1 }
  | SyncEv.snapshotFires g docs =>
    if g = st.activeGen then some { st with pending := st.pending ++ [(g, docs)] }
    else none
  | SyncEv.answersResolve g docs =>
    if (g, docs) ∈ st.pending then
      some { st with pending := st.pending.erase (g, docs),
                     rendered := some (renderList docs kw mode) }
    else none

/-- Run a sequence of asynchronous events from the freshly initialised
page (one live subscription, nothing pending, nothing rendered). -/
def runSync (kw mode : String) (evs : List SyncEv) : Option SyncState :=
  evs.foldlM (syncStep kw mode) { activeGen := 1, pending := [], rendered := none }

section SortLemmas

variable {α : Type} {r : α → α → Prop} [DecidableRel r]

theorem orderedInsert_of_forall_le {x : α} {l : List α} (h : ∀ z ∈ l, r x z) :
    List.orderedInsert r x l = x :: l := by
  cases l with
  | nil => rfl
  | cons b m => exact List.orderedInsert_of_le r m (h b (List.mem_cons_self b m))

theorem filter_orderedInsert [IsTrans α r] (p : α → Bool) (x : α) :
    ∀ l : List α, l.Sorted r →
      (List.orderedInsert r x l).filter p =
        if p x then List.orderedInsert r x (l.filter p) else l.filter p := by
  intro l
  induction l with
  | nil =>
    intro _
    by_cases hp : p x = true <;> simp [List.orderedInsert, hp]
  | cons b m ih =>
    intro hs
    rw [List.sorted_cons] at hs
    by_cases hr : r x b
    · rw [List.orderedInsert_of_le r m hr]
      by_cases hp : p x = true
      · have hall : ∀ z ∈ (b :: m).filter p, r x z := by
          intro z hz
          have hz' := (List.mem_filter.mp hz).1
          rcases List.mem_cons.mp hz' with h1 | h2
          · exact h1 ▸ hr
          · exact IsTrans.trans x b z hr (hs.1 z h2)
        rw [if_pos hp, List.filter_cons_of_pos hp, orderedInsert_of_forall_le hall]
      · rw [if_neg hp, List.filter_cons_of_neg (by simp [hp])]
    · have hoi : List.orderedInsert r x (b :: m) = b :: List.orderedInsert r x m := by
        simp [List.orderedInsert, hr]
      rw [hoi]
      by_cases hb : p b = true <;> by_cases hp : p x = true <;>
        simp [List.filter_cons, hb, hp, ih hs.2, List.orderedInsert, hr]

theorem filter_insertionSort [IsTrans α r] [IsTotal α r] (p : α → Bool) (l : List α) :
    (List.insertionSort r l).filter p = List.insertionSort r (l.filter p) := by
  induction l with
  | nil => rfl
  | cons x xs ih =>
    show (List.orderedInsert r x (List.insertionSort r xs)).filter p = _
    rw [filter_orderedInsert p x _ (List.sorted_insertionSort r xs)]
    by_cases hp : p x = true <;>
      simp [hp, List.filter_cons, ih, List.insertionSort]

theorem jsSort_filter (cmp : α → α → Int)
    (htr : ∀ a b c, cmp a b ≤ 0 → cmp b c ≤ 0 → cmp a c ≤ 0)
    (hto : ∀ a b, cmp a b ≤ 0 ∨ cmp b a ≤ 0)
    (p : α → Bool) (l : List α) :
    (jsSort cmp l).filter p = jsSort cmp (l.filter p) := by
  haveI : IsTrans α (fun a b => cmp a b ≤ 0) := ⟨htr⟩
  haveI : IsTotal α (fun a b => cmp a b ≤ 0) := ⟨hto⟩
  exact filter_insertionSort p l

end SortLemmas

theorem byNewest_trans (a b c : QDoc) :
    byNewest a b ≤ 0 → byNewest b c ≤ 0 → byNewest a c ≤ 0 := by
  simp only [byNewest]; omega

theorem byNewest_total (a b : QDoc) : byNewest a b ≤ 0 ∨ byNewest b a ≤ 0 := by
  simp only [byNewest]; omega

theorem byOldest_trans (a b c : QDoc) :
    byOldest a b ≤ 0 → byOldest b c ≤ 0 → byOldest a c ≤ 0 := by
  simp only [byOldest]; omega

theorem byOldest_total (a b : QDoc) : byOldest a b ≤ 0 ∨ byOldest b a ≤ 0 := by
  simp only [byOldest]; omega

theorem byMostAnswers_trans (a b c : QDoc) :
    byMostAnswers a b ≤ 0 → byMostAnswers b c ≤ 0 → byMostAnswers a c ≤ 0 := by
  simp only [byMostAnswers]; omega

theorem byMostAnswers_total (a b : QDoc) :
    byMostAnswers a b ≤ 0 ∨ byMostAnswers b a ≤ 0 := by
  simp only [byMostAnswers]; omega

theorem applySort_oldest (qs : List QDoc) : applySort qs "oldest" = jsSort byOldest qs := rfl

theorem applySort_mostAnswers (qs : List QDoc) :
    applySort qs "mostAnswers" = jsSort byMostAnswers qs := rfl

theorem applySort_default (qs : List QDoc) (mode : String)
    (h1 : mode ≠ "oldest") (h2 : mode ≠ "mostAnswers") :
    applySort qs mode = jsSort byNewest qs := by
  unfold applySort
  rw [if_neg h1, if_neg h2]

/-- Claim C5: for every list of questions, every keyword, and every fixed
sort mode, filtering commutes with sorting:
`applySort (filterByKeyword qs k) mode = filterByKeyword (applySort qs mode) k`. -/
theorem filter_commutes_with_applySort (qs : List QDoc) (k mode : String) :
    applySort (filterByKeyword qs k) mode = filterByKeyword (applySort qs mode) k := by
  by_cases hk : k = ""
  · simp [filterByKeyword, hk]
  · simp only [filterByKeyword, if_neg hk]
    by_cases h1 : mode = "oldest"
    · subst h1
      rw [applySort_oldest, applySort_oldest]
      exact (jsSort_filter byOldest byOldest_trans byOldest_total _ qs).symm
    · by_cases h2 : mode = "mostAnswers"
      · subst h2
        rw [applySort_mostAnswers, applySort_mostAnswers]
        exact (jsSort_filter byMostAnswers byMostAnswers_trans byMostAnswers_total _ qs).symm
      · rw [applySort_default _ _ h1 h2, applySort_default _ _ h1 h2]
        exact (jsSort_filter byNewest byNewest_trans byNewest_total _ qs).symm

/-- Claim C6: sorting with mode `mostAnswers` is stable: any two questions
with equal answer counts appear in the output in the same relative order
as in the input. -/
theorem applySort_mostAnswers_stable (qs : List QDoc) (a b : QDoc)
    (hab : [a, b] <+ qs)
    (hc : a.answerCount.getD 0 = b.answerCount.getD 0) :
    [a, b] <+ applySort qs "mostAnswers" := by
  rw [applySort_mostAnswers]
  exact List.pair_sublist_insertionSort (by simp only [byMostAnswers, hc]; omega) hab

/-- Two questions with equal answer counts used to witness stability. -/
def qStableA : QDoc :=
  { id := "s1", title := "t1", body := "b1", author := "au1", authorId := "u1",
    createdAt := 5, answerCount := some 2 }

/-- Second stability-witness question, equal answer count, later creation. -/
def qStableB : QDoc :=
  { id := "s2", title := "t2", body := "b2", author := "au2", authorId := "u2",
    createdAt := 9, answerCount := some 2 }

/-- Witness for claim C6 at a concrete two-element list with tied counts. -/
theorem applySort_mostAnswers_stable_witness :
    [qStableA, qStableB] <+ applySort [qStableA, qStableB] "mostAnswers" :=
  applySort_mostAnswers_stable [qStableA, qStableB] qStableA qStableB
    (List.Sublist.refl _) rfl

theorem jsToLower_empty_iff (t : String) : jsToLower t = "" ↔ t = "" := by
  rw [String.ext_iff, String.ext_iff]
  show (t.data.map Char.toLower) = ("" : String).data ↔ t.data = ("" : String).data
  show (t.data.map Char.toLower) = [] ↔ t.data = []
  exact List.map_eq_nil_iff

/-- Claim C4 (amended): the filter applied by the renderer trims the raw
keyword before matching: a question is kept exactly when the lowercased,
trimmed keyword occurs as a substring of the lowercasing of its title,
body or author; an empty or blank raw keyword returns the input
unchanged, in order. -/
theorem renderFiltered_trimmed_ci_substring (qs : List QDoc) (raw : String) :
    renderFiltered qs raw =
      if jsTrim raw = "" then qs
      else qs.filter (fun q =>
        decide ((renderKeyword raw).data <:+: (jsToLower q.title).data ∨
                (renderKeyword raw).data <:+: (jsToLower q.body).data ∨
                (renderKeyword raw).data <:+: (jsToLower q.author).data)) := by
  by_cases h : jsTrim raw = ""
  · rw [if_pos h]
    show filterByKeyword qs (jsToLower (jsTrim raw)) = qs
    rw [h]
    rfl
  · rw [if_neg h]
    have hk : renderKeyword raw ≠ "" := fun hc => h ((jsToLower_empty_iff (jsTrim raw)).mp hc)
    show filterByKeyword qs (renderKeyword raw) = _
    rw [filterByKeyword, if_neg hk]
    apply List.filter_congr
    intro q _
    simp [jsIncludes, Bool.or_assoc]

/-- A question kept by the renderer's filter for the keyword `" a"`
although the lowercased raw keyword occurs in none of its fields. -/
def qTrimKept : QDoc :=
  { id := "cq1", title := "abc", body := "x", author := "y", authorId := "u",
    createdAt := 0, answerCount := some 0 }

/-- A second question, dropped by the same filter call. -/
def qTrimDropped : QDoc :=
  { id := "cq2", title := "zzz", body := "z", author := "z", authorId := "u",
    createdAt := 0, answerCount := some 0 }

/-- Counterexample to claim C4 as stated: for the non-blank raw keyword
`" a"`, the renderer keeps `qTrimKept` even though the lowercased keyword
`" a"` occurs in none of its lowercased title, body or author — the code
matches against the trimmed keyword `"a"`, not the keyword itself. -/
theorem renderFiltered_not_raw_substring_match :
    jsTrim " a" ≠ "" ∧
    renderFiltered [qTrimKept, qTrimDropped] " a" = [qTrimKept] ∧
    ¬((jsToLower " a").data <:+: (jsToLower qTrimKept.title).data ∨
      (jsToLower " a").data <:+: (jsToLower qTrimKept.body).data ∨
      (jsToLower " a").data <:+: (jsToLower qTrimKept.author).data) := by
  refine ⟨by decide, by decide, by decide⟩

theorem wellEscaped_cons_plain (c : Char) (cs : List Char)
    (h1 : c ≠ '<') (h2 : c ≠ '>') (h3 : c ≠ '"') (h4 : c ≠ '&') :
    wellEscaped (c :: cs) = wellEscaped cs := by
  have hstep : wellEscaped (c :: cs) =
      if c = '<' ∨ c = '>' ∨ c = '"' then false
      else if c = '&' then (entityTails.any (fun t => t.isPrefixOf cs)) && wellEscaped cs
      else wellEscaped cs := rfl
  rw [hstep, if_neg (by simp [h1, h2, h3]), if_neg h4]

theorem wellEscaped_amp (cs : List Char) :
    wellEscaped ('&' :: 'a' :: 'm' :: 'p' :: ';' :: cs) = wellEscaped cs := by
  simp [wellEscaped, entityTails, List.isPrefixOf]

theorem wellEscaped_lt (cs : List Char) :
    wellEscaped ('&' :: 'l' :: 't' :: ';' :: cs) = wellEscaped cs := by
  simp [wellEscaped, entityTails, List.isPrefixOf]

theorem wellEscaped_gt (cs : List Char) :
    wellEscaped ('&' :: 'g' :: 't' :: ';' :: cs) = wellEscaped cs := by
  simp [wellEscaped, entityTails, List.isPrefixOf]

theorem wellEscaped_quot (cs : List Char) :
    wellEscaped ('&' :: 'q' :: 'u' :: 'o' :: 't' :: ';' :: cs) = wellEscaped cs := by
  simp [wellEscaped, entityTails, List.isPrefixOf]

/-- Claim C8: for every input string, the output of `escapeHTML` contains
no raw `<`, `>` or `"`, and every `&` in it is the leading character of
one of the entities it produces (`&amp;` `&lt;` `&gt;` `&quot;`). -/
theorem escapeHTML_wellEscaped (s : String) :
    wellEscaped (escapeHTML s).data = true := by
  show wellEscaped (s.data.flatMap escChar) = true
  induction s.data with
  | nil => rfl
  | cons c cs ih =>
    rw [List.flatMap_cons]
    by_cases h1 : c = '&'
    · subst h1
      show wellEscaped ('&' :: 'a' :: 'm' :: 'p' :: ';' :: cs.flatMap escChar) = true
      rw [wellEscaped_amp]
      exact ih
    · by_cases h2 : c = '<'
      · subst h2
        show wellEscaped ('&' :: 'l' :: 't' :: ';' :: cs.flatMap escChar) = true
        rw [wellEscaped_lt]
        exact ih
      · by_cases h3 : c = '>'
        · subst h3
          show wellEscaped ('&' :: 'g' :: 't' :: ';' :: cs.flatMap escChar) = true
          rw [wellEscaped_gt]
          exact ih
        · by_cases h4 : c = '"'
          · subst h4
            show wellEscaped ('&' :: 'q' :: 'u' :: 'o' :: 't' :: ';' :: cs.flatMap escChar) = true
            rw [wellEscaped_quot]
            exact ih
          · have he : escChar c = [c] := by
              unfold escChar
              rw [if_neg h1, if_neg h2, if_neg h3, if_neg h4]
            rw [he, List.singleton_append, wellEscaped_cons_plain c _ h2 h3 h4 h1]
            exact ih

/-- Claim C1: a successful `deleteQuestion` leaves no answer with the
deleted question's id and no question with that id; its write trace is all
the matching answer deletions followed by the single question deletion
(answers removed strictly before the question); the `loadAnswers` listing
path for that id is empty afterwards; and referential integrity of the
store is preserved, so no listing path returns an answer whose owning
question no longer exists. -/
theorem deleteQuestion_some_eq (u : User) (qid : String) (s : Store) :
    deleteQuestion (some u) qid s =
      (if s.available = false then (s, [], some JsErr.storeUnavailable)
       else
         match s.questions.filter (fun q => q.id == qid) with
         | qd :: _ =>
           if qd.authorId != u.uid then (s, [], some JsErr.permissionDenied)
           else deleteQuestionDocs qid s
         | [] => deleteQuestionDocs qid s) := rfl

theorem deleteQuestion_cascades (u : User) (qid : String) (s s' : Store) (ops : List Op)
    (h : deleteQuestion (some u) qid s = (s', ops, none)) :
    s'.answers.all (fun a => a.questionId != qid) = true ∧
    s'.questions.all (fun q => q.id != qid) = true ∧
    ops = (s.answers.filter (fun a => a.questionId == qid)).map (fun a => Op.delAnswer a.id)
      ++ [Op.delQuestion qid] ∧
    loadAnswers qid s' = [] ∧
    (refIntact s = true → refIntact s' = true) := by
  have hmain : s.available = true ∧ deleteQuestionDocs qid s = (s', ops, none) := by
    rw [deleteQuestion_some_eq] at h
    by_cases hav : s.available = false
    · rw [if_pos hav] at h
      exact absurd (congrArg (fun t => t.2.2) h) (by simp)
    · rw [if_neg hav] at h
      have hav' : s.available = true := by revert hav; cases s.available <;> simp
      refine ⟨hav', ?_⟩
      split at h
      · split at h
        · simp at h
        · exact h
      · exact h
  obtain ⟨hav, hdel⟩ := hmain
  unfold deleteQuestionDocs at hdel
  have hs' : s' = { s with
      questions := s.questions.filter (fun q => q.id != qid),
      answers := s.answers.filter (fun a => a.questionId != qid) } :=
    (congrArg (fun t => t.1) hdel).symm
  have hops : ops = (s.answers.filter (fun a => a.questionId == qid)).map
      (fun a => Op.delAnswer a.id) ++ [Op.delQuestion qid] :=
    (congrArg (fun t => t.2.1) hdel).symm
  subst hs'
  refine ⟨?_, ?_, hops, ?_, ?_⟩
  · simp [List.all_eq_true, List.mem_filter]
  · simp [List.all_eq_true, List.mem_filter]
  · show loadAnswers qid _ = []
    unfold loadAnswers
    rw [if_pos (by exact hav)]
    have hnil : ((s.answers.filter (fun a => a.questionId != qid)).filter
        (fun a => a.questionId == qid)) = [] := by
      rw [List.filter_filter]
      rw [List.filter_eq_nil_iff]
      intro a _
      simp [bne]
    show jsSort byAnswerTime _ = []
    rw [hnil]
    rfl
  · intro hri
    simp only [refIntact, List.all_eq_true, List.any_eq_true, List.mem_filter] at hri ⊢
    intro a ha
    obtain ⟨haS, hane⟩ := ha
    obtain ⟨q, hqS, hqid⟩ := hri a haS
    refine ⟨q, ⟨hqS, ?_⟩, hqid⟩
    have h1 : q.id = a.questionId := by simpa using hqid
    have h2 : a.questionId ≠ qid := by simpa using hane
    simpa [bne] using h1 ▸ h2

/-- Claim C2: when a logged-in user calls `deleteQuestion` on an existing
question authored by someone else, it throws the permission error before
any write (store unchanged, empty op trace), and `onDeleteQuestion`
surfaces it as the user-facing alert message. -/
theorem deleteQuestion_nonowner_rejected (u : User) (qid : String) (s : Store) (q : QDoc)
    (hav : s.available = true)
    (hhead : (s.questions.filter (fun x => x.id == qid)).head? = some q)
    (hauth : (q.authorId == u.uid) = false) :
    deleteQuestion (some u) qid s = (s, [], some JsErr.permissionDenied) ∧
    onDeleteQuestion true (some u) qid s =
      (s, [], some "질문 삭제에 실패했습니다: 자신이 작성한 질문만 삭제할 수 있습니다.") := by
  have hdel : deleteQuestion (some u) qid s = (s, [], some JsErr.permissionDenied) := by
    rw [deleteQuestion_some_eq, if_neg (by rw [hav]; simp)]
    split
    next qd tail heq =>
      rw [heq] at hhead
      have hqd : qd = q := by simpa using hhead
      subst hqd
      rw [if_pos (by simp [bne, hauth])]
    next heq =>
      rw [heq] at hhead
      exact absurd hhead (by simp)
  refine ⟨hdel, ?_⟩
  unfold onDeleteQuestion
  rw [if_neg (by simp), hdel]
  have hmsg : "질문 삭제에 실패했습니다: " ++ errMessage JsErr.permissionDenied =
      "질문 삭제에 실패했습니다: 자신이 작성한 질문만 삭제할 수 있습니다." := by decide
  show (s, ([] : List Op),
      some ("질문 삭제에 실패했습니다: " ++ errMessage JsErr.permissionDenied)) =
    (s, [], some "질문 삭제에 실패했습니다: 자신이 작성한 질문만 삭제할 수 있습니다.")
  rw [hmsg]

/-- Claim C10: calling `deleteQuestion` as a logged-in user with an id no
question document has skips the ownership check: no permission error, the
question collection is untouched, every answer with that `questionId` is
deleted, and the trace still ends with the attempted deletion of the
nonexistent question document. -/
theorem deleteQuestion_missing_skips_check (u : User) (qid : String) (s : Store)
    (hav : s.available = true)
    (hmiss : s.questions.filter (fun q => q.id == qid) = []) :
    (deleteQuestion (some u) qid s).2.2 = none ∧
    (deleteQuestion (some u) qid s).1.questions = s.questions ∧
    (deleteQuestion (some u) qid s).1.answers
      = s.answers.filter (fun a => a.questionId != qid) ∧
    (deleteQuestion (some u) qid s).2.1 =
      (s.answers.filter (fun a => a.questionId == qid)).map (fun a => Op.delAnswer a.id)
        ++ [Op.delQuestion qid] := by
  have hd : deleteQuestion (some u) qid s = deleteQuestionDocs qid s := by
    rw [deleteQuestion_some_eq, if_neg (by rw [hav]; simp)]
    split
    next qd tail heq =>
      rw [hmiss] at heq
      exact absurd heq.symm (by simp)
    next heq => rfl
  rw [hd]
  unfold deleteQuestionDocs
  refine ⟨rfl, ?_, rfl, rfl⟩
  show s.questions.filter (fun q => q.id != qid) = s.questions
  rw [List.filter_eq_self]
  intro q hq
  have hne := List.filter_eq_nil_iff.mp hmiss q hq
  have hfalse : (q.id == qid) = false := by revert hne; cases (q.id == qid) <;> simp
  simp [bne, hfalse]

/-- Claim C3 (amended): `loadQuestions` and `loadAnswers` catch a read
failure of the backing medium inside their own try/catch and return the
empty sequence, logging to the console only; the caller cannot distinguish
a read failure from a store holding no data, and no `StoreUnavailable`
error reaches the user. -/
theorem load_unavailable_returns_empty (s : Store) (qid : String)
    (h : s.available = false) :
    loadQuestions s = [] ∧ loadAnswers qid s = [] := by
  constructor
  · unfold loadQuestions
    rw [h]
    rfl
  · unfold loadAnswers
    rw [h]
    rfl

/-- A store whose backing medium cannot be read, although it holds data. -/
def sUnreadable : Store :=
  { questions := [{ id := "q1", title := "t1", body := "b1", author := "au1",
                    authorId := "u1", createdAt := 1, answerCount := some 1 }],
    answers := [{ id := "a1", body := "ans", author := "au2", authorId := "u2",
                  createdAt := 2, questionId := "q1" }],
    available := false, nextId := 0, now := 0 }

/-- A readable store holding no data at all. -/
def sNoData : Store :=
  { questions := [], answers := [], available := true, nextId := 0, now := 0 }

/-- Counterexample to claim C3 as stated: when the backing medium cannot
be read, `loadQuestions` does not fail — it returns `[]` even though data
exists, the very value it returns for a store with no data, so a read
failure is indistinguishable from an empty store. -/
theorem loadQuestions_swallows_read_failure :
    sUnreadable.available = false ∧ sUnreadable.questions ≠ [] ∧
    loadQuestions sUnreadable = [] ∧ loadQuestions sNoData = [] ∧
    loadAnswers "q1" sUnreadable = [] := by
  refine ⟨rfl, by decide, rfl, rfl, rfl⟩

/-- Witness for the amended claim C3 at the concrete unreadable store. -/
theorem load_unavailable_returns_empty_witness :
    loadQuestions sUnreadable = [] ∧ loadAnswers "q1" sUnreadable = [] :=
  load_unavailable_returns_empty sUnreadable "q1" rfl

/-- Claim C7: submitting the create-question action with a blank (empty or
whitespace-only) author, title, or body issues no store write and leaves
the store untouched. -/
theorem onCreateQuestion_blank_no_mutation (u : Option User)
    (authorRaw titleRaw bodyRaw : String) (s : Store)
    (hblank : jsTrim authorRaw = "" ∨ jsTrim titleRaw = "" ∨ jsTrim bodyRaw = "") :
    (onCreateQuestion u authorRaw titleRaw bodyRaw s).1 = s ∧
    (onCreateQuestion u authorRaw titleRaw bodyRaw s).2.1 = [] := by
  cases u with
  | none => exact ⟨rfl, rfl⟩
  | some user =>
    have he : onCreateQuestion (some user) authorRaw titleRaw bodyRaw s = (s, [], none) := by
      show (if jsTrim authorRaw = "" ∨ jsTrim titleRaw = "" ∨ jsTrim bodyRaw = ""
            then ((s, [], none) : Store × List Op × Option String)
            else match saveQuestion (some user) (jsTrim authorRaw) (jsTrim titleRaw)
                   (jsTrim bodyRaw) s with
                 | Except.ok (s1, ops, _) => (s1, ops, none)
                 | Except.error e => (s, [], some ("질문 등록에 실패했습니다: " ++ errMessage e)))
          = (s, [], none)
      rw [if_pos hblank]
    rw [he]
    exact ⟨rfl, rfl⟩

/-- The logged-in owner of question `"q1"` in the concrete stores below. -/
def uAlice : User := { uid := "u1", displayName := "Alice" }

/-- A second authenticated user who does not own question `"q1"`. -/
def uBob : User := { uid := "u2", displayName := "Bob" }

/-- Concrete question owned by `uAlice`. -/
def qAlice : QDoc :=
  { id := "q1", title := "t1", body := "b1", author := "Alice", authorId := "u1",
    createdAt := 10, answerCount := some 1 }

/-- Concrete question owned by `uBob`. -/
def qBob : QDoc :=
  { id := "q2", title := "t2", body := "b2", author := "Bob", authorId := "u2",
    createdAt := 5, answerCount := some 1 }

/-- An answer attached to question `"q1"`. -/
def aOnQ1 : ADoc :=
  { id := "a1", body := "ans1", author := "Bob", authorId := "u2",
    createdAt := 11, questionId := "q1" }

/-- An answer attached to question `"q2"`. -/
def aOnQ2 : ADoc :=
  { id := "a2", body := "ans2", author := "Alice", authorId := "u1",
    createdAt := 12, questionId := "q2" }

/-- A concrete store with two questions and one answer each. -/
def sMain : Store :=
  { questions := [qAlice, qBob], answers := [aOnQ1, aOnQ2],
    available := true, nextId := 0, now := 100 }

/-- Result of `uAlice` successfully deleting question `"q1"` from `sMain`. -/
def sMainAfterDel : Store :=
  { questions := [qBob], answers := [aOnQ2],
    available := true, nextId := 0, now := 100 }

/-- The write trace of that successful deletion. -/
def opsDel : List Op := [Op.delAnswer "a1", Op.delQuestion "q1"]

/-- Witness for claim C1: the owner deletes `"q1"` from `sMain`. -/
theorem deleteQuestion_cascades_witness :
    sMainAfterDel.answers.all (fun a => a.questionId != "q1") = true ∧
    sMainAfterDel.questions.all (fun q => q.id != "q1") = true ∧
    opsDel = (sMain.answers.filter (fun a => a.questionId == "q1")).map
        (fun a => Op.delAnswer a.id) ++ [Op.delQuestion "q1"] ∧
    loadAnswers "q1" sMainAfterDel = [] ∧
    refIntact sMainAfterDel = true := by
  have h := deleteQuestion_cascades uAlice "q1" sMain sMainAfterDel opsDel (by decide)
  exact ⟨h.1, h.2.1, h.2.2.1, h.2.2.2.1, h.2.2.2.2 (by decide)⟩

/-- Witness for claim C2: `uBob` tries to delete `uAlice`'s question. -/
theorem deleteQuestion_nonowner_rejected_witness :
    deleteQuestion (some uBob) "q1" sMain = (sMain, [], some JsErr.permissionDenied) ∧
    onDeleteQuestion true (some uBob) "q1" sMain =
      (sMain, [], some "질문 삭제에 실패했습니다: 자신이 작성한 질문만 삭제할 수 있습니다.") :=
  deleteQuestion_nonowner_rejected uBob "q1" sMain qAlice rfl (by decide) (by decide)

/-- Witness for claim C7: blank author field, nothing persisted. -/
theorem onCreateQuestion_blank_no_mutation_witness :
    (onCreateQuestion (some uAlice) "   " "Title" "Body" sMain).1 = sMain ∧
    (onCreateQuestion (some uAlice) "   " "Title" "Body" sMain).2.1 = [] :=
  onCreateQuestion_blank_no_mutation (some uAlice) "   " "Title" "Body" sMain
    (Or.inl (by decide))

/-- An answer whose `questionId` names a question that does not exist. -/
def aOrphan : ADoc :=
  { id := "a9", body := "ans9", author := "Bob", authorId := "u2",
    createdAt := 13, questionId := "qGone" }

/-- A store holding an orphaned answer for the missing id `"qGone"`. -/
def sOrphan : Store :=
  { questions := [qAlice], answers := [aOnQ1, aOrphan],
    available := true, nextId := 0, now := 100 }

/-- Witness for claim C10: deleting the missing id `"qGone"`. -/
theorem deleteQuestion_missing_skips_check_witness :
    (deleteQuestion (some uAlice) "qGone" sOrphan).2.2 = none ∧
    (deleteQuestion (some uAlice) "qGone" sOrphan).1.questions = sOrphan.questions ∧
    (deleteQuestion (some uAlice) "qGone" sOrphan).1.answers
      = sOrphan.answers.filter (fun a => a.questionId != "qGone") ∧
    (deleteQuestion (some uAlice) "qGone" sOrphan).2.1 =
      (sOrphan.answers.filter (fun a => a.questionId == "qGone")).map
        (fun a => Op.delAnswer a.id) ++ [Op.delQuestion "qGone"] :=
  deleteQuestion_missing_skips_check uAlice "qGone" sOrphan rfl (by decide)

/-- The question list delivered by the first (superseded) snapshot. -/
def qGenOne : QDoc :=
  { id := "q1", title := "t1", body := "b1", author := "au1", authorId := "u1",
    createdAt := 1, answerCount := some 0 }

/-- The question list delivered by the second (current) snapshot. -/
def qGenTwo : QDoc :=
  { id := "q2", title := "t2", body := "b2", author := "au2", authorId := "u2",
    createdAt := 2, answerCount := some 0 }

/-- A valid interleaving: subscription 1's snapshot fires and starts its
answer loads; a new trigger supersedes it (unsubscribing the listener);
subscription 2's snapshot fires, its answers resolve and render; then
subscription 1's still-pending answer loads resolve and render again. -/
def staleTrace : List SyncEv :=
  [SyncEv.snapshotFires 1 [qGenOne], SyncEv.trigger, SyncEv.snapshotFires 2 [qGenTwo],
   SyncEv.answersResolve 2 [qGenTwo], SyncEv.answersResolve 1 [qGenOne]]

/-- Claim C9 evaluated at the failing interleaving: the run is accepted by
the step relation (every event is one the code can produce), yet the
finally rendered list is the earlier trigger's data `[qGenOne]`, not the
later trigger's `[qGenTwo]` — the pending answer-loading chain of a
superseded subscription is never cancelled and renders last. -/
theorem runSync_stale_render_last :
    runSync "" "newest" staleTrace =
      some { activeGen := 2, pending := [], rendered := some [qGenOne] } ∧
    renderList [qGenOne] "" "newest" = [qGenOne] ∧
    renderList [qGenTwo] "" "newest" = [qGenTwo] ∧
    ([qGenOne] : List QDoc) ≠ [qGenTwo] := by
  refine ⟨by decide, by decide, by decide, by decide⟩

end QnA
